import Mathlib

/-!
Shallow embedding of `src/image_analyzer.py` from the
image-cgroupsv2-inspector repository, together with theorems settling the
frozen claims about its compatibility classifiers, binary locator, and the
`analyze_image` orchestration.

Strings are modelled over ASCII character lists (`List Char`); Python's
`str.split(".")`, `str.replace`, `str.isdigit` and `int(...)` are
re-implemented faithfully for that fragment.  Effectful steps of the
pipeline (podman pull / export, tar extraction, in-container version
probes) are modelled by an explicit environment that records each step's
outcome: normal success, an expected failure (the `(False, error)` tuples
the Python helpers return), or an unexpected raised exception.
-/

namespace Inspector

/-! ### Python string and integer primitives -/

/-- ASCII whitespace stripped by Python's `int(str)` conversion. -/
def isPyWs (c : Char) : Bool :=
  c = ' ' || c = '\t' || c = '\n' || c = '\r' || c = '\x0b' || c = '\x0c'

/-- Both-ends whitespace strip, as Python's `int` applies before parsing. -/
def trimWsC (cs : List Char) : List Char :=
  ((cs.dropWhile isPyWs).reverse.dropWhile isPyWs).reverse

/-- Digit run continuation for Python `int`: single underscores are allowed
only between digits. `acc` is the value of the digits already consumed. -/
def pyDigitsAux (acc : Nat) : List Char → Option Nat
  | [] => some acc
  | c :: rest =>
    if c.isDigit then pyDigitsAux (acc * 10 + (c.toNat - 48)) rest
    else if c = '_' then
      match rest with
      | [] => none
      | d :: rest2 =>
        if d.isDigit then pyDigitsAux (acc * 10 + (d.toNat - 48)) rest2 else none
    else none

/-- A digit run must start with a digit (so `int("_1")` and `int("")` fail). -/
def pyDigitsStart : List Char → Option Nat
  | [] => none
  | c :: rest => if c.isDigit then pyDigitsAux (c.toNat - 48) rest else none

/-- Python's `int(s)` on a character list: optional surrounding whitespace,
optional sign, then a non-empty digit run; `none` models a raised
`ValueError`. -/
def pyIntC (cs : List Char) : Option Int :=
  match trimWsC cs with
  | [] => none
  | c :: rest =>
    if c = '+' then (pyDigitsStart rest).map Int.ofNat
    else if c = '-' then (pyDigitsStart rest).map (fun n => -(n : Int))
    else (pyDigitsStart (c :: rest)).map Int.ofNat

/-- Left-to-right traversal of Python's `[int(p) for p in ...]`: the first
conversion failure aborts the whole comprehension (a raised
`ValueError`). -/
def mapOptionAll (f : α → Option β) : List α → Option (List β)
  | [] => some []
  | a :: rest =>
    match f a with
    | none => none
    | some b =>
      match mapOptionAll f rest with
      | none => none
      | some bs => some (b :: bs)

/-- Python's `str.isdigit()` for the ASCII fragment: non-empty and all
decimal digits. -/
def pyIsDigits (cs : List Char) : Bool :=
  !cs.isEmpty && cs.all (·.isDigit)

/-- Value of an all-digit character list (what `int(p)` returns once
`p.isdigit()` holds). -/
def natOfDigitsC (cs : List Char) : Nat :=
  cs.foldl (fun n c => n * 10 + (c.toNat - 48)) 0

/-- Python's `str.split(sep)` for a one-character separator: an empty string
yields `[[]]`, adjacent separators yield empty groups. -/
def splitOnChar (sep : Char) : List Char → List (List Char)
  | [] => [[]]
  | c :: rest =>
    if c = sep then [] :: splitOnChar sep rest
    else
      match splitOnChar sep rest with
      | [] => [[c]]
      | g :: gs => (c :: g) :: gs

/-- `version.split(".")` as used by all three classifiers. -/
def splitOnDot (cs : List Char) : List (List Char) := splitOnChar '.' cs

/-- `version.replace("-b", ".")`: left-to-right non-overlapping replacement. -/
def replaceDashB : List Char → List Char
  | [] => []
  | [c] => [c]
  | c :: d :: rest =>
    if c = '-' ∧ d = 'b' then '.' :: replaceDashB rest
    else c :: replaceDashB (d :: rest)

/-- `version.replace("_", ".")`. -/
def replaceUnderscore (cs : List Char) : List Char :=
  cs.map (fun c => if c = '_' then '.' else c)

/-! ### Compatibility classifiers (`_check_*_compatibility`) -/

/-- The parsed component list of `_check_java_compatibility`
(line 593-594 of `image_analyzer.py`): normalize `-b` and `_` to `.`,
split on `.`, keep only pure digit components, convert to integers. -/
def javaVersionParts (version : String) : List Nat :=
  ((splitOnDot (replaceUnderscore (replaceDashB version.data))).filter
    pyIsDigits).map natOfDigitsC

/-- The rule chain of `_check_java_compatibility` (lines 610-651) once
`major`, `minor`, `update` have been resolved; `parts` is passed through
for the IBM Java fourth-component check at line 628. -/
def javaRule (major minor update : Nat) (parts : List Nat)
    (runtime_type : String) : Bool :=
  if 15 ≤ major then true
  else if major = 11 then
    (if 0 < minor then true else decide (16 ≤ update))
  else if major = 8 then
    (if runtime_type = "IBM Java" then
      (if 0 < minor then true
       else if 7 < update then true
       else if update = 7 ∧ 3 < parts.length ∧ 15 ≤ parts.getD 3 0 then true
       else false)
     else if runtime_type = "IBM Semeru" then decide (345 ≤ update)
     else decide (372 ≤ update))
  else if major = 17 ∧ runtime_type = "IBM Semeru" then
    (decide (0 < minor) || decide (4 ≤ update))
  else if major = 18 ∧ runtime_type = "IBM Semeru" then
    (decide (0 < minor) || decide (2 ≤ update))
  else if 9 ≤ major ∧ major ≤ 14 then false
  else true

/-- `ImageAnalyzer._check_java_compatibility` (lines 575-654).  Empty part
list fails closed; a leading component 1 with a successor switches to the
legacy `1.x` positional reading (lines 602-608). -/
def check_java_compatibility (version runtime_type : String) : Bool :=
  match javaVersionParts version with
  | [] => false
  | p0 :: rest =>
    let parts := p0 :: rest
    if p0 = 1 ∧ rest ≠ [] then
      javaRule (parts.getD 1 0) (parts.getD 2 0) (parts.getD 3 0) parts
        runtime_type
    else
      javaRule p0 (parts.getD 1 0) (parts.getD 2 0) parts runtime_type

/-- `ImageAnalyzer._check_node_compatibility` (lines 656-688): every
dot-separated component must convert via `int(...)` (a failure is the
caught exception, yielding `false`); fewer than three components fail;
otherwise the 20.3.0 threshold rule. -/
def check_node_compatibility (version : String) : Bool :=
  match mapOptionAll pyIntC (splitOnDot version.data) with
  | none => false
  | some parts =>
    if parts.length < 3 then false
    else
      let major := parts.getD 0 0
      let minor := parts.getD 1 0
      let patch := parts.getD 2 0
      if 20 < major then true
      else if major = 20 then
        (if 3 < minor then true
         else if minor = 3 then decide (0 ≤ patch)
         else false)
      else false

/-- `ImageAnalyzer._check_dotnet_compatibility` (lines 734-760): all
components must parse, at least two are required, and only the major is
compared against 5. -/
def check_dotnet_compatibility (version : String) : Bool :=
  match mapOptionAll pyIntC (splitOnDot version.data) with
  | none => false
  | some parts =>
    if parts.length < 2 then false
    else decide (5 ≤ parts.getD 0 0)

/-! ### Path helpers and exclusion filter -/

/-- Does the character list `l` start with `pre`? -/
def hasPrefixC (pre l : List Char) : Bool :=
  decide (l.take pre.length = pre)

/-- Does the character list `l` contain `sub` as a contiguous run? -/
def hasInfixC (sub : List Char) : List Char → Bool
  | [] => sub.isEmpty
  | c :: rest => hasPrefixC sub (c :: rest) || hasInfixC sub rest

/-- Does the string `s` end with `suffix`?  This models the anchored regex
patterns of lines 116-118, each equivalent to an end-of-string suffix
match. -/
def hasSuffixS (s suffix : String) : Bool :=
  decide (suffix.data.length ≤ s.data.length) &&
    decide (s.data.drop (s.data.length - suffix.data.length) = suffix.data)

/-- `ImageAnalyzer.EXCLUDE_PATH_PREFIXES` (lines 121-127). -/
def EXCLUDE_PATH_PREFIXES : List String :=
  ["/var/lib/alternatives/", "/var/lib/dpkg/alternatives/",
   "/etc/alternatives/", "/usr/share/bash-completion/",
   "/etc/bash_completion.d/"]

/-- `ImageAnalyzer.EXCLUDE_PATH_CONTAINS` (lines 130-132). -/
def EXCLUDE_PATH_CONTAINS : List String :=
  ["/.dotnet/optimizationdata/"]

/-- `ImageAnalyzer._is_excluded_path` (lines 134-150). -/
def is_excluded_path (path : String) : Bool :=
  EXCLUDE_PATH_PREFIXES.any (fun e => hasPrefixC e.data path.data) ||
    EXCLUDE_PATH_CONTAINS.any (fun e => hasInfixC e.data path.data)

/-- Segment-stack normalization underlying `os.path.normpath` on absolute
paths: empty and `.` segments vanish, `..` pops (or vanishes at the
root). -/
def normStack (stack : List (List Char)) : List (List Char) → List (List Char)
  | [] => stack.reverse
  | s :: rest =>
    if s = [] ∨ s = ['.'] then normStack stack rest
    else if s = ['.', '.'] then
      match stack with
      | [] => normStack [] rest
      | _ :: t => normStack t rest
    else normStack (s :: stack) rest

/-- `os.path.normpath` restricted to absolute paths, which is the only form
the locator produces (line 456). -/
def normpath (p : String) : String :=
  match normStack [] (splitOnChar '/' p.data) with
  | [] => "/"
  | segs => ⟨segs.foldl (fun acc s => acc ++ '/' :: s) []⟩

/-- `os.path.dirname` for absolute paths: everything before the final
slash, with the root kept as `/`. -/
def dirnameS (p : String) : String :=
  let pre := (p.data.reverse.dropWhile (fun c => ¬ c = '/')).reverse
  match pre with
  | [] => ""
  | ['/'] => "/"
  | l => ⟨l.dropLast⟩

/-- `os.path.join(dir, rel)` for the shapes the locator produces. -/
def joinPath (dir rel : String) : String :=
  if dir.data.getLastD ' ' = '/' then ⟨dir.data ++ rel.data⟩
  else ⟨dir.data ++ '/' :: rel.data⟩

/-- Resolution of one symlink hop, as `_find_binaries` performs at lines
450-456: an absolute target is re-anchored below the extracted root
(container view), a relative one is joined to the link's directory; both
are normalized.  All paths here are in container coordinates. -/
def resolveLinkTarget (linkPath target : String) : String :=
  if hasPrefixC ['/'] target.data then
    normpath ⟨'/' :: target.data.dropWhile (fun c => c = '/')⟩
  else
    normpath (joinPath (dirnameS linkPath) target)

/-! ### Extracted-tree model and the binary locator -/

/-- One non-directory entry of the extracted tree, in container
coordinates: `target = none` is a regular file, `target = some t` a
symbolic link whose `readlink` text is `t`. -/
structure FSEntry where
  path : String
  target : Option String
deriving DecidableEq, Repr

/-- The extracted tree, listed in the order `os.walk` yields its files. -/
abbrev FileSystem := List FSEntry

/-- Entry lookup by exact path. -/
def lookupFS (fs : FileSystem) (p : String) : Option FSEntry :=
  fs.find? (fun e => e.path = p)

/-- Fueled symlink-chasing file test, modelling `os.path.isfile` inside the
extracted tree. -/
def isfileF (fs : FileSystem) : Nat → String → Bool
  | 0, _ => false
  | fuel + 1, p =>
    match lookupFS fs p with
    | some ⟨_, none⟩ => true
    | some ⟨q, some t⟩ => isfileF fs fuel (resolveLinkTarget q t)
    | none => false

/-- `os.path.isfile` with enough fuel to traverse any acyclic chain. -/
def isfile (fs : FileSystem) (p : String) : Bool :=
  isfileF fs (fs.length + 1) p

/-- Fueled canonicalization modelling `os.path.realpath`. -/
def realpathF (fs : FileSystem) : Nat → String → String
  | 0, p => p
  | fuel + 1, p =>
    match lookupFS fs p with
    | some ⟨q, some t⟩ => realpathF fs fuel (resolveLinkTarget q t)
    | _ => p

/-- `os.path.realpath` used by the dedup sets (lines 892, 928, 964). -/
def realpath (fs : FileSystem) (p : String) : String :=
  realpathF fs (fs.length + 1) p

/-- Per-entry logic of `_find_binaries` (lines 437-464): pattern match on
the container path, symlink resolution, then the resolved-file /
plain-file fallback checks, yielding the path appended to `found`. -/
def locateEntry (fs : FileSystem) (suffix : String) (e : FSEntry) :
    Option String :=
  if ¬ hasSuffixS e.path suffix then none
  else
    let resolved := match e.target with
      | none => e.path
      | some t => resolveLinkTarget e.path t
    if isfile fs resolved then some resolved
    else if isfile fs e.path then some e.path
    else none

/-- `ImageAnalyzer._find_binaries` (lines 423-468): walk every file entry
in order and collect the located paths. -/
def find_binaries (fs : FileSystem) (suffix : String) : List String :=
  fs.filterMap (locateEntry fs suffix)

/-- The filtering done inside each family loop of `analyze_image`
(lines 881-895): drop excluded container paths, then drop any path whose
`realpath` was already checked. -/
def candGo (fs : FileSystem) : List String → List String → List String
  | [], _ => []
  | p :: rest, checked =>
    if is_excluded_path p then candGo fs rest checked
    else
      let r := realpath fs p
      if checked.contains r then candGo fs rest checked
      else p :: candGo fs rest (r :: checked)

/-- The container paths that survive location, exclusion filtering, and
realpath deduplication — exactly the binaries `analyze_image` probes, in
probe order. -/
def candidatePaths (fs : FileSystem) (suffix : String) : List String :=
  candGo fs (find_binaries fs suffix) []

/-! ### Analyzer state, environment, and `analyze_image` -/

/-- The `BinaryInfo` dataclass (lines 23-30). -/
structure BinaryInfo where
  path : String
  version : String
  version_output : String
  is_compatible : Bool
  runtime_type : String
deriving DecidableEq, Repr

/-- The `ImageAnalysisResult` dataclass (lines 33-41). -/
structure ImageAnalysisResult where
  image_name : String
  image_id : String
  java_binaries : List BinaryInfo := []
  node_binaries : List BinaryInfo := []
  dotnet_binaries : List BinaryInfo := []
  error : Option String := none
deriving DecidableEq, Repr

/-- Transient artifacts below the WorkingRoot (`self.rootfs_path`): the
export tarball `image-rootfs.tar` and the `extracted` tree. -/
structure WorkingRoot where
  hasExtracted : Bool
  hasTar : Bool
deriving DecidableEq, Repr

/-- The state `_cleanup` (lines 762-808) leaves behind: both transient
artifacts removed. -/
def cleanRoot : WorkingRoot := ⟨false, false⟩

/-- Mutable state of an `ImageAnalyzer` instance: the
`_analyzed_images` memo dictionary and the WorkingRoot contents. -/
structure AnalyzerState where
  cache : List (String × ImageAnalysisResult)
  root : WorkingRoot
deriving DecidableEq, Repr

/-- Outcome of one effectful pipeline step: `ok` is normal success, `err`
is the expected-failure return value (`(False, message)` tuples), and
`exn` is an unexpected raised exception carrying `str(e)`. -/
inductive StepRes where
  | ok
  | err (msg : String)
  | exn (msg : String)
deriving DecidableEq, Repr

/-- Environment fixing the outcome of every external effect one
`analyze_image` call performs: the pull, the container export, the tar
extraction, the resulting extracted tree, and each in-container version
probe (which either returns its parsed data or raises). -/
structure PipelineEnv where
  pull : StepRes
  exportStep : StepRes
  extractStep : StepRes
  fs : FileSystem
  probeJava : String → Except String (String × String × String)
  probeNode : String → Except String (String × String)
  probeDotnet : String → Except String (String × String)

/-- Run the probe/classify body over the deduplicated candidates in order;
a raised exception stops the loop, keeping the `BinaryInfo` records already
appended (the Python loop mutates `result.*_binaries` incrementally). -/
def probeAll (handle : String → Except String BinaryInfo) :
    List String → List BinaryInfo × Option String
  | [] => ([], none)
  | p :: rest =>
    match handle p with
    | .error e => ([], some e)
    | .ok info =>
      match probeAll handle rest with
      | (infos, exnMsg) => (info :: infos, exnMsg)

/-- One family loop of `analyze_image` (e.g. lines 875-909): locate,
filter, dedup, then probe and classify each surviving candidate. -/
def runFamily (fs : FileSystem) (suffix : String)
    (handle : String → Except String BinaryInfo) :
    List BinaryInfo × Option String :=
  probeAll handle (candidatePaths fs suffix)

/-- Probe-and-classify body for one Java candidate (lines 897-909). -/
def handle_java (env : PipelineEnv) (p : String) : Except String BinaryInfo :=
  (env.probeJava p).map fun d =>
    ⟨p, d.1, d.2.1, check_java_compatibility d.1 d.2.2, d.2.2⟩

/-- Probe-and-classify body for one Node candidate (lines 933-945). -/
def handle_node (env : PipelineEnv) (p : String) : Except String BinaryInfo :=
  (env.probeNode p).map fun d =>
    ⟨p, d.1, d.2, check_node_compatibility d.1, "NodeJS"⟩

/-- Probe-and-classify body for one .NET candidate (lines 969-981). -/
def handle_dotnet (env : PipelineEnv) (p : String) :
    Except String BinaryInfo :=
  (env.probeDotnet p).map fun d =>
    ⟨p, d.1, d.2, check_dotnet_compatibility d.1, ".NET"⟩

/-- Result bundle of one `analyze_image` call: the returned
`ImageAnalysisResult`, the analyzer state afterwards, and whether the
pipeline body past the cache check ran (its first action is the Fetcher's
`podman pull`, so this flag is "the Fetcher was invoked"). -/
structure AnalyzeOutput where
  result : ImageAnalysisResult
  state : AnalyzerState
  pipelineRan : Bool
deriving Repr

/-- Exit through the code after the `try` statement (lines 1009-1012):
the `finally` cleanup has run and the result is written into the memo
dictionary.  Taken on the success path and on the caught-exception path. -/
def finish_cached (st : AnalyzerState) (key : String)
    (r : ImageAnalysisResult) : AnalyzeOutput :=
  ⟨r, ⟨(key, r) :: st.cache, cleanRoot⟩, true⟩

/-- Exit through a `return` inside the `try` block (lines 844, 854, 864):
the `finally` cleanup has run but lines 1009-1011 are skipped, so the
result is NOT cached. -/
def finish_uncached (st : AnalyzerState) (r : ImageAnalysisResult) :
    AnalyzeOutput :=
  ⟨r, ⟨st.cache, cleanRoot⟩, true⟩

/-- `ImageAnalyzer.analyze_image` (lines 810-1012).  The cache key prefers
`image_id`, falling back to `image_name` when it is empty (line 823); a
cache hit returns immediately.  Otherwise the pipeline runs: pull, export,
extract (each can fail expectedly, returning an uncached errored result,
or raise, which the outer `except` turns into a cached errored result),
then the three family loops, whose raised exceptions also reach the outer
`except` with the partially filled result.  Cleanup runs on every
pipeline path via `finally`. -/
def analyze_image (env : PipelineEnv) (st : AnalyzerState)
    (image_name image_id : String) : AnalyzeOutput :=
  let cacheKey := if image_id = "" then image_name else image_id
  match st.cache.lookup cacheKey with
  | some r => ⟨r, st, false⟩
  | none =>
    let base : ImageAnalysisResult := ⟨image_name, image_id, [], [], [], none⟩
    match env.pull with
    | .err e => finish_uncached st { base with error := some e }
    | .exn e => finish_cached st cacheKey { base with error := some e }
    | .ok =>
    match env.exportStep with
    | .err e => finish_uncached st { base with error := some e }
    | .exn e => finish_cached st cacheKey { base with error := some e }
    | .ok =>
    match env.extractStep with
    | .err e => finish_uncached st { base with error := some e }
    | .exn e => finish_cached st cacheKey { base with error := some e }
    | .ok =>
    match runFamily env.fs "/java" (handle_java env) with
    | (jbs, some e) =>
      finish_cached st cacheKey
        { base with java_binaries := jbs, error := some e }
    | (jbs, none) =>
    match runFamily env.fs "/node" (handle_node env) with
    | (nbs, some e) =>
      finish_cached st cacheKey
        { base with java_binaries := jbs, node_binaries := nbs,
                    error := some e }
    | (nbs, none) =>
    match runFamily env.fs "/dotnet" (handle_dotnet env) with
    | (dbs, some e) =>
      finish_cached st cacheKey
        { base with java_binaries := jbs, node_binaries := nbs,
                    dotnet_binaries := dbs, error := some e }
    | (dbs, none) =>
      finish_cached st cacheKey
        { base with java_binaries := jbs, node_binaries := nbs,
                    dotnet_binaries := dbs }

/-! ### Concrete fixtures for witnesses and counterexamples -/

/-- An analyzer state with an empty ledger and a clean WorkingRoot, as
after `__init__`. -/
def st0 : AnalyzerState := ⟨[], cleanRoot⟩

/-- An environment where every step succeeds over an empty extracted
tree. -/
def envTrivial : PipelineEnv :=
  ⟨.ok, .ok, .ok, [], fun _ => .ok ("unknown", "", "Unknown"),
   fun _ => .ok ("unknown", ""), fun _ => .ok ("unknown", "")⟩

/-- An environment whose `podman pull` fails with a non-zero exit. -/
def envPullFail : PipelineEnv :=
  ⟨.err "Failed to pull image: network unreachable", .ok, .ok, [],
   fun _ => .ok ("unknown", "", "Unknown"), fun _ => .ok ("unknown", ""),
   fun _ => .ok ("unknown", "")⟩

/-- An environment whose `podman pull` raises an unexpected exception. -/
def envPullExn : PipelineEnv :=
  ⟨.exn "boom", .ok, .ok, [], fun _ => .ok ("unknown", "", "Unknown"),
   fun _ => .ok ("unknown", ""), fun _ => .ok ("unknown", "")⟩

/-- An extracted tree holding two distinct regular `java` binaries. -/
def fsTwoJava : FileSystem :=
  [⟨"/usr/bin/java", none⟩, ⟨"/opt/jdk/bin/java", none⟩]

/-- An environment where the probe of the second Java binary raises after
the first has already been recorded. -/
def envMidLoopExn : PipelineEnv :=
  ⟨.ok, .ok, .ok, fsTwoJava,
   fun p => if p = "/usr/bin/java" then .ok ("17.0.1", "openjdk 17.0.1", "OpenJDK")
            else .error "probe blew up",
   fun _ => .ok ("unknown", ""), fun _ => .ok ("unknown", "")⟩

/-- An extracted tree with one regular `java` binary, one symlink alias,
and an excluded alternatives entry. -/
def fsOneJavaOneAlias : FileSystem :=
  [⟨"/usr/bin/java", none⟩, ⟨"/usr/local/bin/java", some "/usr/bin/java"⟩]

/-- A tree where `/etc/alternatives/java` itself is a regular file
matching the Java name pattern. -/
def fsAlternativesJava : FileSystem :=
  [⟨"/etc/alternatives/java", none⟩, ⟨"/usr/bin/java", none⟩]

/-- A sample cached result for the memoization witness. -/
def r0 : ImageAnalysisResult := ⟨"registry.example/app:1", "sha256:abc", [], [], [], none⟩

/-! ### Supporting lemmas -/

theorem mem_of_dropWhile {p : Char → Bool} {l : List Char} {a : Char}
    (h : a ∈ l.dropWhile p) : a ∈ l := by
  induction l with
  | nil => simp at h
  | cons c rest ih =>
    rw [List.dropWhile_cons] at h
    by_cases hc : p c = true
    · rw [if_pos hc] at h
      exact List.mem_cons_of_mem _ (ih h)
    · rw [if_neg hc] at h
      exact h

theorem mem_trimWsC {cs : List Char} {a : Char} (h : a ∈ trimWsC cs) :
    a ∈ cs := by
  unfold trimWsC at h
  rw [List.mem_reverse] at h
  have h1 := mem_of_dropWhile h
  rw [List.mem_reverse] at h1
  exact mem_of_dropWhile h1

theorem pyDigitsStart_eq_none {cs : List Char}
    (h : ∀ c ∈ cs, c.isDigit = false) : pyDigitsStart cs = none := by
  cases cs with
  | nil => rfl
  | cons c rest => simp [pyDigitsStart, h c (List.mem_cons_self _ _)]

theorem pyIntC_eq_none {cs : List Char} (h : ∀ c ∈ cs, c.isDigit = false) :
    pyIntC cs = none := by
  have ht : ∀ c ∈ trimWsC cs, c.isDigit = false :=
    fun c hc => h c (mem_trimWsC hc)
  simp only [pyIntC]
  cases hcs : trimWsC cs with
  | nil => rfl
  | cons c rest =>
    rw [hcs] at ht
    have hrest : ∀ x ∈ rest, x.isDigit = false :=
      fun x hx => ht x (List.mem_cons_of_mem _ hx)
    by_cases h1 : c = '+'
    · simp [h1, pyDigitsStart_eq_none hrest]
    · by_cases h2 : c = '-'
      · simp [h1, h2, pyDigitsStart_eq_none hrest]
      · simp [h1, h2, pyDigitsStart_eq_none ht]

theorem mapOptionAll_eq_none {α β : Type} {f : α → Option β} {l : List α}
    {a : α} (ha : a ∈ l) (hf : f a = none) : mapOptionAll f l = none := by
  induction l with
  | nil => simp at ha
  | cons b rest ih =>
    rcases List.mem_cons.mp ha with rfl | h
    · simp [mapOptionAll, hf]
    · simp only [mapOptionAll]
      cases hfb : f b with
      | none => rfl
      | some x => rw [ih h]

theorem splitOnChar_ne_nil (sep : Char) (l : List Char) :
    splitOnChar sep l ≠ [] := by
  induction l with
  | nil => simp [splitOnChar]
  | cons c rest ih =>
    simp only [splitOnChar]
    by_cases hc : c = sep
    · simp [hc]
    · rw [if_neg hc]
      cases h : splitOnChar sep rest with
      | nil => simp
      | cons g gs => simp

theorem mem_of_mem_splitOnChar {sep : Char} {l g : List Char} {c : Char}
    (hg : g ∈ splitOnChar sep l) (hc : c ∈ g) : c ∈ l := by
  induction l generalizing g with
  | nil =>
    simp [splitOnChar] at hg
    subst hg
    simp at hc
  | cons b rest ih =>
    simp only [splitOnChar] at hg
    by_cases hb : b = sep
    · rw [if_pos hb] at hg
      rcases List.mem_cons.mp hg with rfl | h
      · simp at hc
      · exact List.mem_cons_of_mem _ (ih h hc)
    · rw [if_neg hb] at hg
      cases hsp : splitOnChar sep rest with
      | nil => exact absurd hsp (splitOnChar_ne_nil sep rest)
      | cons g0 gs =>
        rw [hsp] at hg
        rcases List.mem_cons.mp hg with rfl | h
        · rcases List.mem_cons.mp hc with rfl | h2
          · exact List.mem_cons_self _ _
          · exact List.mem_cons_of_mem _
              (ih (hsp ▸ List.mem_cons_self _ _) h2)
        · exact List.mem_cons_of_mem _ (ih (hsp ▸ List.mem_cons_of_mem _ h) hc)

theorem mem_replaceDashB : ∀ {l : List Char} {c : Char},
    c ∈ replaceDashB l → c ∈ l ∨ c = '.'
  | [], c, h => by simp [replaceDashB] at h
  | [d], c, h => by
    simp [replaceDashB] at h
    exact Or.inl (by simp [h])
  | a :: b :: rest, c, h => by
    simp only [replaceDashB] at h
    by_cases hab : a = '-' ∧ b = 'b'
    · rw [if_pos hab] at h
      rcases List.mem_cons.mp h with rfl | h2
      · exact Or.inr rfl
      · rcases mem_replaceDashB h2 with h3 | h3
        · exact Or.inl (List.mem_cons_of_mem _ (List.mem_cons_of_mem _ h3))
        · exact Or.inr h3
    · rw [if_neg hab] at h
      rcases List.mem_cons.mp h with rfl | h2
      · exact Or.inl (List.mem_cons_self _ _)
      · rcases mem_replaceDashB h2 with h3 | h3
        · exact Or.inl (List.mem_cons_of_mem _ h3)
        · exact Or.inr h3

theorem replaceDashB_noDigit {l : List Char}
    (h : ∀ c ∈ l, c.isDigit = false) :
    ∀ c ∈ replaceDashB l, c.isDigit = false := by
  intro c hc
  rcases mem_replaceDashB hc with h1 | rfl
  · exact h c h1
  · decide

theorem replaceUnderscore_noDigit {l : List Char}
    (h : ∀ c ∈ l, c.isDigit = false) :
    ∀ c ∈ replaceUnderscore l, c.isDigit = false := by
  intro c hc
  simp only [replaceUnderscore, List.mem_map] at hc
  rcases hc with ⟨d, hd, rfl⟩
  by_cases hd' : d = '_'
  · simp [hd']
  · simp only [if_neg hd']
    exact h d hd

theorem javaVersionParts_eq_nil {v : String}
    (h : ∀ c ∈ v.data, c.isDigit = false) : javaVersionParts v = [] := by
  have h2 : ∀ c ∈ replaceUnderscore (replaceDashB v.data), c.isDigit = false :=
    replaceUnderscore_noDigit (replaceDashB_noDigit h)
  unfold javaVersionParts
  rw [List.map_eq_nil_iff, List.filter_eq_nil_iff]
  intro g hg
  cases g with
  | nil => simp [pyIsDigits]
  | cons c rest =>
    have hcd : c.isDigit = false :=
      h2 c (mem_of_mem_splitOnChar hg (List.mem_cons_self _ _))
    simp [pyIsDigits, hcd]

theorem javaRule_eight (minor update : Nat) (parts : List Nat)
    (rt : String) :
    javaRule 8 minor update parts rt =
      (if rt = "IBM Java" then
        (if 0 < minor then true
         else if 7 < update then true
         else if update = 7 ∧ 3 < parts.length ∧ 15 ≤ parts.getD 3 0 then true
         else false)
       else if rt = "IBM Semeru" then decide (345 ≤ update)
       else decide (372 ≤ update)) := by
  simp [javaRule]

/-! ### Claim theorems -/

/-- C2: fail-closed classification.  For every version string without any
digit-bearing component (in particular the probe sentinel "unknown" and
the empty string), all three classifiers return incompatible, and — the
classifiers being total Lean functions whose internal `Option` failures
are consumed locally — no parse exception reaches the caller. -/
theorem C2_fail_closed (v : String) (h : ∀ c ∈ v.data, c.isDigit = false) :
    (∀ fl, check_java_compatibility v fl = false) ∧
    check_node_compatibility v = false ∧
    check_dotnet_compatibility v = false := by
  obtain ⟨g, gs, hsp⟩ : ∃ g gs, splitOnDot v.data = g :: gs := by
    cases hs : splitOnDot v.data with
    | nil => exact absurd hs (splitOnChar_ne_nil '.' v.data)
    | cons g gs => exact ⟨g, gs, rfl⟩
  have hgnd : ∀ c ∈ g, c.isDigit = false := fun c hc =>
    h c (mem_of_mem_splitOnChar (hsp ▸ List.mem_cons_self _ _) hc)
  have hnone : mapOptionAll pyIntC (splitOnDot v.data) = none :=
    mapOptionAll_eq_none (hsp ▸ List.mem_cons_self _ _) (pyIntC_eq_none hgnd)
  refine ⟨fun fl => ?_, ?_, ?_⟩
  · simp [check_java_compatibility, javaVersionParts_eq_nil h]
  · simp [check_node_compatibility, hnone]
  · simp [check_dotnet_compatibility, hnone]

/-- C2 witness: the sentinel "unknown" is incompatible for every family. -/
theorem C2_fail_closed_witness :
    check_java_compatibility "unknown" "IBM Semeru" = false ∧
    check_node_compatibility "unknown" = false ∧
    check_dotnet_compatibility "unknown" = false :=
  have h := C2_fail_closed "unknown" (by decide)
  ⟨h.1 "IBM Semeru", h.2.1, h.2.2⟩

/-- C3: Java legacy-encoding and Java-8 rules.  When the parsed component
list starts with 1 followed by 8, the major is 8 and minor/update are the
third/fourth components; compatibility is update≥345 for IBM Semeru,
update≥372 for every other flavor, and the IBM Java disjunction (whose
last disjunct, update=7 together with the fourth component — the same
value — being ≥15, is unsatisfiable in this legacy reading, exactly as
the code computes it).  The two boundary scenarios evaluate as the claim
states. -/
theorem C3_java_legacy_eight (v fl : String) (parts : List Nat)
    (hp : javaVersionParts v = parts) (h0 : parts.getD 0 0 = 1)
    (h1 : parts.getD 1 0 = 8) (hlen : 2 ≤ parts.length) :
    (check_java_compatibility v fl = true ↔
      (if fl = "IBM Java" then
        0 < parts.getD 2 0 ∨ 7 < parts.getD 3 0 ∨
          (parts.getD 3 0 = 7 ∧ 15 ≤ parts.getD 3 0)
       else if fl = "IBM Semeru" then 345 ≤ parts.getD 3 0
       else 372 ≤ parts.getD 3 0)) ∧
    check_java_compatibility "1.8.0_345" "IBM Semeru" = true ∧
    check_java_compatibility "1.8.0_344" "OpenJDK" = false := by
  refine ⟨?_, by decide, by decide⟩
  obtain ⟨p0, parts1, rfl⟩ : ∃ p0 parts1, parts = p0 :: parts1 := by
    cases parts with
    | nil => simp at hlen
    | cons a l => exact ⟨a, l, rfl⟩
  obtain ⟨p1, parts2, rfl⟩ : ∃ p1 parts2, parts1 = p1 :: parts2 := by
    cases parts1 with
    | nil => simp at hlen
    | cons a l => exact ⟨a, l, rfl⟩
  simp only [List.getD_cons_zero, List.getD_cons_succ] at h0 h1
  subst h0 h1
  simp only [check_java_compatibility, hp]
  rw [if_pos (by simp : True ∧ (8 :: parts2 : List Nat) ≠ [])]
  simp only [List.getD_cons_zero, List.getD_cons_succ]
  rw [javaRule_eight]
  simp only [List.getD_cons_zero, List.getD_cons_succ]
  by_cases hIJ : fl = "IBM Java"
  · rw [if_pos hIJ, if_pos hIJ]
    by_cases h1 : 0 < parts2.getD 0 0
    · rw [if_pos h1]
      exact iff_of_true rfl (Or.inl h1)
    · by_cases h2 : 7 < parts2.getD 1 0
      · rw [if_neg h1, if_pos h2]
        exact iff_of_true rfl (Or.inr (Or.inl h2))
      · rw [if_neg h1, if_neg h2,
          if_neg (show ¬(parts2.getD 1 0 = 7 ∧
            3 < (1 :: 8 :: parts2).length ∧ 15 ≤ parts2.getD 1 0) by omega)]
        constructor
        · intro hcontr
          simp at hcontr
        · intro hor
          exfalso
          omega
  · rw [if_neg hIJ, if_neg hIJ]
    by_cases hIS : fl = "IBM Semeru"
    · rw [if_pos hIS, if_pos hIS]
      exact decide_eq_true_iff
    · rw [if_neg hIS, if_neg hIS]
      exact decide_eq_true_iff

/-- C3 witness at the boundary scenario 1.8.0_345 / IBM Semeru. -/
theorem C3_java_legacy_eight_witness :
    check_java_compatibility "1.8.0_345" "IBM Semeru" = true :=
  (C3_java_legacy_eight "1.8.0_345" "IBM Semeru" [1, 8, 0, 345] (by decide)
    (by decide) (by decide) (by decide)).2.1

/-- C4 (code bug): the claim — and the code's own docstrings and the
comment at line 638 — require IBM Semeru 17 to be compatible only when
minor>0 or update≥4, but the `major >= 15` early return at line 611 fires
first, so EVERY version with major component 17 is classified compatible
for every flavor; in particular 17.0.3.0 / IBM Semeru, which the claim
says is incompatible, evaluates to compatible.  The Semeru-17 branch at
line 639 is unreachable. -/
theorem C4_java17_code_behavior (v fl : String)
    (h : (javaVersionParts v).getD 0 0 = 17) :
    check_java_compatibility v fl = true ∧
    check_java_compatibility "17.0.3.0" "IBM Semeru" = true := by
  refine ⟨?_, by decide⟩
  cases hp : javaVersionParts v with
  | nil => rw [hp] at h; simp at h
  | cons p0 rest =>
    rw [hp] at h
    simp only [List.getD_cons_zero] at h
    subst h
    simp only [check_java_compatibility, hp]
    rw [if_neg (by simp)]
    simp [javaRule]

/-- C4 witness: the dead-branch input itself. -/
theorem C4_java17_code_behavior_witness :
    check_java_compatibility "17.0.3.0" "IBM Semeru" = true :=
  (C4_java17_code_behavior "17.0.3.0" "IBM Semeru" (by decide)).1

/-- C5 counterexample: the claim says any component count other than
exactly three is incompatible and that the patch component never affects
the verdict, but the code only rejects FEWER than three components
("20.3.0.0" with four components is accepted), and a negative patch
literal — accepted by Python's `int` — flips 20.3.x from compatible to
incompatible. -/
theorem C5_node_counterexample :
    check_node_compatibility "20.3.0.0" = true ∧
    check_node_compatibility "20.3.0" = true ∧
    check_node_compatibility "20.3.-1" = false := by
  refine ⟨by decide, by decide, by decide⟩

/-- C5 (amended): the Node classifier requires at least three
dot-separated integer components (fewer fail); given that, it is
compatible iff major>20, or major=20 and minor>3, or major=20, minor=3
and patch≥0 (so the patch only matters through its sign, which
probe-extracted versions — all-digit components — can never make
negative).  "20.3.0" is compatible and "20.2.9" is not. -/
theorem C5_node_rule (v : String) (parts : List Int)
    (h : mapOptionAll pyIntC (splitOnDot v.data) = some parts) :
    (check_node_compatibility v =
      (decide (3 ≤ parts.length) &&
        (decide (20 < parts.getD 0 0) ||
          (decide (parts.getD 0 0 = 20) &&
            (decide (3 < parts.getD 1 0) ||
              (decide (parts.getD 1 0 = 3) &&
                decide (0 ≤ parts.getD 2 0))))))) ∧
    check_node_compatibility "20.3.0" = true ∧
    check_node_compatibility "20.2.9" = false := by
  refine ⟨?_, by decide, by decide⟩
  simp only [check_node_compatibility, h]
  by_cases hl : parts.length < 3
  · rw [if_pos hl, decide_eq_false (show ¬3 ≤ parts.length by omega),
      Bool.false_and]
  · rw [if_neg hl, decide_eq_true (show 3 ≤ parts.length by omega),
      Bool.true_and]
    by_cases h1 : 20 < parts.getD 0 0
    · rw [if_pos h1, decide_eq_true h1, Bool.true_or]
    · rw [if_neg h1, decide_eq_false h1, Bool.false_or]
      by_cases h2 : parts.getD 0 0 = 20
      · rw [if_pos h2, decide_eq_true h2, Bool.true_and]
        by_cases h3 : 3 < parts.getD 1 0
        · rw [if_pos h3, decide_eq_true h3, Bool.true_or]
        · rw [if_neg h3, decide_eq_false h3, Bool.false_or]
          by_cases h4 : parts.getD 1 0 = 3
          · rw [if_pos h4, decide_eq_true h4, Bool.true_and]
          · rw [if_neg h4, decide_eq_false h4, Bool.false_and]
      · rw [if_neg h2, decide_eq_false h2, Bool.false_and]

/-- C5 witness at the boundary scenario 20.3.0. -/
theorem C5_node_rule_witness : check_node_compatibility "20.3.0" = true :=
  (C5_node_rule "20.3.0" [20, 3, 0] (by decide)).2.1

/-- C10: the Java classifier silently drops non-digit components before
positional interpretation ("11.ea.16" parses to [11, 16], read as major
11 with minor 16, hence compatible), while in the Node and .NET
classifiers a single component rejected by `int(...)` makes the whole
version string incompatible. -/
theorem C10_nondigit_components (v : String)
    (h : ∃ g ∈ splitOnDot v.data, pyIntC g = none) :
    check_node_compatibility v = false ∧
    check_dotnet_compatibility v = false ∧
    javaVersionParts "11.ea.16" = [11, 16] ∧
    check_java_compatibility "11.ea.16" "OpenJDK" = true ∧
    check_node_compatibility "11.ea.16" = false ∧
    check_dotnet_compatibility "11.ea.16" = false := by
  obtain ⟨g, hg, hnone⟩ := h
  have hall : mapOptionAll pyIntC (splitOnDot v.data) = none :=
    mapOptionAll_eq_none hg hnone
  exact ⟨by simp [check_node_compatibility, hall],
    by simp [check_dotnet_compatibility, hall], by decide, by decide,
    by decide, by decide⟩

/-- C10 witness at "11.ea.16". -/
theorem C10_nondigit_components_witness :
    check_node_compatibility "11.ea.16" = false ∧
    check_java_compatibility "11.ea.16" "OpenJDK" = true :=
  have h := C10_nondigit_components "11.ea.16"
    ⟨['e', 'a'], by decide, by decide⟩
  ⟨h.1, h.2.2.2.1⟩

theorem candGo_contains_excluded (fs : FileSystem) (p : String)
    (h : is_excluded_path p = true) :
    ∀ (l checked : List String), (candGo fs l checked).contains p = false := by
  intro l
  induction l with
  | nil => intro checked; rfl
  | cons q rest ih =>
    intro checked
    simp only [candGo]
    by_cases hq : is_excluded_path q = true
    · rw [if_pos hq]
      exact ih checked
    · rw [if_neg hq]
      by_cases hc : checked.contains (realpath fs q) = true
      · rw [if_pos hc]
        exact ih checked
      · rw [if_neg hc, List.contains_cons]
        have hpq : (p == q) = false := by
          rw [beq_eq_false_iff_ne]
          intro he
          rw [← he] at hq
          exact hq h
        rw [hpq, Bool.false_or]
        exact ih _

/-- C9: infrastructure-path exclusion.  No container path satisfying
`_is_excluded_path` — a fixed-prefix or optimization-cache match — is ever
emitted as a probe candidate, for any extracted tree and any family
pattern; in particular "/etc/alternatives/java" never appears. -/
theorem C9_infrastructure_exclusion (fs : FileSystem) (suffix p : String)
    (h : is_excluded_path p = true) :
    (candidatePaths fs suffix).contains p = false := by
  unfold candidatePaths
  exact candGo_contains_excluded fs p h _ _

/-- C9 witness: a tree in which `/etc/alternatives/java` is a regular file
matching the Java name pattern still never yields it as a candidate. -/
theorem C9_infrastructure_exclusion_witness :
    (candidatePaths fsAlternativesJava "/java").contains
      "/etc/alternatives/java" = false :=
  C9_infrastructure_exclusion fsAlternativesJava "/java"
    "/etc/alternatives/java" (by decide)

/-- C8: symlink deduplication.  For an extracted tree consisting of one
regular interpreter binary `b` (matching the family pattern and not
excluded) plus any number of symlink aliases whose locator-resolution is
`b`, location plus exclusion filtering plus realpath deduplication yields
exactly the one candidate `b`, so the interpreter is probed exactly
once. -/
theorem C8_symlink_dedup (b : String) (aliases : List FSEntry)
    (hsuf : hasSuffixS b "/java" = true)
    (hexcl : is_excluded_path b = false)
    (halias : ∀ a ∈ aliases, ∃ t, a.target = some t ∧
        resolveLinkTarget a.path t = b) :
    candidatePaths (⟨b, none⟩ :: aliases) "/java" = [b] := by
  set fs : FileSystem := ⟨b, none⟩ :: aliases with hfs
  have hlook : lookupFS fs b = some ⟨b, none⟩ := by
    simp [hfs, lookupFS, List.find?]
  have hbfile : isfile fs b = true := by
    simp only [isfile, isfileF, hlook]
  have hbreal : realpath fs b = b := by
    simp only [realpath, realpathF, hlook]
  have hhead : locateEntry fs "/java" ⟨b, none⟩ = some b := by
    simp only [locateEntry, hsuf, not_true_eq_false, if_false, hbfile,
      if_true]
  have hloc : ∀ a ∈ aliases, locateEntry fs "/java" a = none ∨
      locateEntry fs "/java" a = some b := by
    intro a ha
    obtain ⟨t, ht, hres⟩ := halias a ha
    by_cases hs : hasSuffixS a.path "/java" = true
    · right
      simp only [locateEntry, hs, not_true_eq_false, if_false, ht, hres,
        hbfile, if_true]
    · left
      simp [locateEntry, hs]
  have hfb : find_binaries fs "/java" =
      b :: aliases.filterMap (locateEntry fs "/java") := by
    simp [find_binaries, hfs, List.filterMap_cons, hhead]
  have hl : ∀ x ∈ aliases.filterMap (locateEntry fs "/java"), x = b := by
    intro x hx
    rw [List.mem_filterMap] at hx
    obtain ⟨a, ha, hax⟩ := hx
    rcases hloc a ha with h | h
    · rw [h] at hax; cases hax
    · rw [h] at hax; exact (Option.some_inj.mp hax).symm
  have hcontain : ([b] : List String).contains b = true := by simp
  have hnil : ∀ l2, (∀ x ∈ l2, x = b) → candGo fs l2 [b] = [] := by
    intro l2
    induction l2 with
    | nil => intro _; rfl
    | cons q rest ih =>
      intro hq
      have hqb : q = b := hq q (List.mem_cons_self _ _)
      subst hqb
      simp only [candGo, hexcl, Bool.false_eq_true, if_false, hbreal,
        hcontain, if_true]
      exact ih (fun x hx => hq x (List.mem_cons_of_mem _ hx))
  unfold candidatePaths
  rw [hfb]
  simp only [candGo, hexcl, Bool.false_eq_true, if_false, hbreal,
    List.contains_nil, if_false]
  rw [hnil _ hl]

/-- C8 witness: one regular binary with one symlink alias is probed
exactly once. -/
theorem C8_symlink_dedup_witness :
    candidatePaths fsOneJavaOneAlias "/java" = ["/usr/bin/java"] :=
  C8_symlink_dedup "/usr/bin/java"
    [⟨"/usr/local/bin/java", some "/usr/bin/java"⟩] (by decide) (by decide)
    (by
      intro a ha
      rw [List.mem_singleton] at ha
      subst ha
      exact ⟨"/usr/bin/java", rfl, by decide⟩)

/-- C7: cleanup invariant.  On every pipeline exit path — success,
expected component failure, caught unexpected exception — the `finally`
block removes the extracted tree and the export tarball, so the
WorkingRoot is clean after the call; the cache-hit path touches nothing
and therefore preserves the clean WorkingRoot the constructor and every
earlier completed call establish. -/
theorem C7_cleanup_invariant (env : PipelineEnv) (st : AnalyzerState)
    (image_name image_id : String) :
    (st.cache.lookup (if image_id = "" then image_name else image_id) =
        none →
      (analyze_image env st image_name image_id).state.root = cleanRoot) ∧
    (st.root = cleanRoot →
      (analyze_image env st image_name image_id).state.root = cleanRoot) := by
  have hsplit : (∃ r, st.cache.lookup
        (if image_id = "" then image_name else image_id) = some r) ∨
      st.cache.lookup (if image_id = "" then image_name else image_id) =
        none := by
    cases st.cache.lookup (if image_id = "" then image_name else image_id)
      with
    | some r => exact Or.inl ⟨r, rfl⟩
    | none => exact Or.inr rfl
  rcases hsplit with ⟨r, hl⟩ | hl
  · constructor
    · intro h
      rw [h] at hl
      cases hl
    · intro h
      simp only [analyze_image, hl]
      exact h
  · have hmain :
        (analyze_image env st image_name image_id).state.root = cleanRoot := by
      simp only [analyze_image, hl]
      cases env.pull with
      | err e => rfl
      | exn e => rfl
      | ok =>
        cases env.exportStep with
        | err e => rfl
        | exn e => rfl
        | ok =>
          cases env.extractStep with
          | err e => rfl
          | exn e => rfl
          | ok =>
            rcases hj : runFamily env.fs "/java" (handle_java env) with
              ⟨jbs, jx⟩
            cases jx with
            | some e => simp [hj, finish_cached]
            | none =>
              rcases hn : runFamily env.fs "/node" (handle_node env) with
                ⟨nbs, nx⟩
              cases nx with
              | some e => simp [hj, hn, finish_cached]
              | none =>
                rcases hd : runFamily env.fs "/dotnet" (handle_dotnet env)
                  with ⟨dbs, dx⟩
                cases dx with
                | some e => simp [hj, hn, hd, finish_cached]
                | none => simp [hj, hn, hd, finish_cached]
    exact ⟨fun _ => hmain, fun _ => hmain⟩

/-- C7 witness: a fresh analyzer state is left with a clean WorkingRoot. -/
theorem C7_cleanup_invariant_witness :
    (analyze_image envTrivial st0 "registry.example/app:1" "").state.root =
      cleanRoot :=
  (C7_cleanup_invariant envTrivial st0 "registry.example/app:1" "").1 rfl

/-- C6 counterexample: after a first call whose pull fails, nothing is
stored for the identity (the early `return` at line 844 skips the cache
write at line 1009), so a second call with the same identity re-invokes
the fetch/materialize/probe pipeline, contradicting the claim's "for
every identity" quantification. -/
theorem C6_memoization_counterexample :
    (analyze_image envPullFail st0 "registry.example/app:1" "").state.cache =
      [] ∧
    (analyze_image envPullFail
        (analyze_image envPullFail st0 "registry.example/app:1" "").state
        "registry.example/app:1" "").pipelineRan = true :=
  ⟨rfl, rfl⟩

/-- C6 (amended): whenever the ledger already maps the identity (image ID
when non-empty, else the raw image name) to a result — which a first call
establishes on every path except the early returns for pull, export and
extract failures — a subsequent call returns exactly that cached result,
leaves the state untouched, and does not re-invoke the pipeline. -/
theorem C6_memoization_cached (env : PipelineEnv) (st : AnalyzerState)
    (image_name image_id : String) (r : ImageAnalysisResult)
    (h : st.cache.lookup (if image_id = "" then image_name else image_id) =
      some r) :
    analyze_image env st image_name image_id = ⟨r, st, false⟩ := by
  simp only [analyze_image, h]

/-- C6 witness: a ledger entry under the image ID is returned verbatim
without running the pipeline. -/
theorem C6_memoization_cached_witness :
    analyze_image envTrivial ⟨[("sha256:abc", r0)], cleanRoot⟩
      "registry.example/app:1" "sha256:abc" =
      ⟨r0, ⟨[("sha256:abc", r0)], cleanRoot⟩, false⟩ :=
  C6_memoization_cached envTrivial ⟨[("sha256:abc", r0)], cleanRoot⟩
    "registry.example/app:1" "sha256:abc" r0 rfl

/-- C1 counterexample: an unexpected exception raised while probing the
second Java binary is caught at the boundary and recorded in `error`, but
the binary recorded before the exception stays in `java_binaries` — the
returned result does NOT have empty per-family lists as the claim
states. -/
theorem C1_boundary_counterexample :
    (analyze_image envMidLoopExn st0 "registry.example/app:1" "").result.error
        = some "probe blew up" ∧
    (analyze_image envMidLoopExn st0
        "registry.example/app:1" "").result.java_binaries =
      [⟨"/usr/bin/java", "17.0.1", "openjdk 17.0.1", true, "OpenJDK"⟩] :=
  ⟨rfl, rfl⟩

/-- C1 (amended): analyze() never raises — any unexpected exception inside
the pipeline, wherever it arises, is caught at the outermost boundary and
recorded in the returned result's `error` field, and the per-family lists
hold exactly the binaries appended before the exception: all three lists
are empty when the exception arises during pull, materialization
(export), or extraction; an exception in the Java, Node, or .NET probe
loop keeps the binaries that loop already recorded together with the
complete lists of the earlier families, while the later families' lists
are empty. -/
theorem C1_never_raises (env : PipelineEnv) (st : AnalyzerState)
    (image_name image_id e : String)
    (hkey : st.cache.lookup (if image_id = "" then image_name else image_id)
      = none) :
    ((env.pull = .exn e ∨ (env.pull = .ok ∧ env.exportStep = .exn e) ∨
        (env.pull = .ok ∧ env.exportStep = .ok ∧
          env.extractStep = .exn e)) →
      (analyze_image env st image_name image_id).result.error = some e ∧
      (analyze_image env st image_name image_id).result.java_binaries = [] ∧
      (analyze_image env st image_name image_id).result.node_binaries = [] ∧
      (analyze_image env st image_name image_id).result.dotnet_binaries
        = []) ∧
    (∀ jbs, env.pull = .ok → env.exportStep = .ok → env.extractStep = .ok →
      runFamily env.fs "/java" (handle_java env) = (jbs, some e) →
      (analyze_image env st image_name image_id).result.error = some e ∧
      (analyze_image env st image_name image_id).result.java_binaries
        = jbs ∧
      (analyze_image env st image_name image_id).result.node_binaries = [] ∧
      (analyze_image env st image_name image_id).result.dotnet_binaries
        = []) ∧
    (∀ jbs nbs, env.pull = .ok → env.exportStep = .ok →
      env.extractStep = .ok →
      runFamily env.fs "/java" (handle_java env) = (jbs, none) →
      runFamily env.fs "/node" (handle_node env) = (nbs, some e) →
      (analyze_image env st image_name image_id).result.error = some e ∧
      (analyze_image env st image_name image_id).result.java_binaries
        = jbs ∧
      (analyze_image env st image_name image_id).result.node_binaries
        = nbs ∧
      (analyze_image env st image_name image_id).result.dotnet_binaries
        = []) ∧
    (∀ jbs nbs dbs, env.pull = .ok → env.exportStep = .ok →
      env.extractStep = .ok →
      runFamily env.fs "/java" (handle_java env) = (jbs, none) →
      runFamily env.fs "/node" (handle_node env) = (nbs, none) →
      runFamily env.fs "/dotnet" (handle_dotnet env) = (dbs, some e) →
      (analyze_image env st image_name image_id).result.error = some e ∧
      (analyze_image env st image_name image_id).result.java_binaries
        = jbs ∧
      (analyze_image env st image_name image_id).result.node_binaries
        = nbs ∧
      (analyze_image env st image_name image_id).result.dotnet_binaries
        = dbs) := by
  refine ⟨?_, ?_, ?_, ?_⟩
  · rintro (hp | ⟨hp, hx⟩ | ⟨hp, hx, he⟩) <;>
      simp [analyze_image, hkey, hp, *, finish_cached]
  · intro jbs hp hx he hrj
    simp [analyze_image, hkey, hp, hx, he, hrj, finish_cached]
  · intro jbs nbs hp hx he hrj hrn
    simp [analyze_image, hkey, hp, hx, he, hrj, hrn, finish_cached]
  · intro jbs nbs dbs hp hx he hrj hrn hrd
    simp [analyze_image, hkey, hp, hx, he, hrj, hrn, hrd, finish_cached]

/-- C1 witness: an exception raised by the pull step is converted into an
errored result with empty lists, and an exception raised inside the Java
probe loop leaves the later families' lists empty. -/
theorem C1_never_raises_witness :
    ((analyze_image envPullExn st0 "registry.example/app:1" "").result.error
        = some "boom" ∧
      (analyze_image envPullExn st0
        "registry.example/app:1" "").result.java_binaries = []) ∧
    ((analyze_image envMidLoopExn st0
        "registry.example/app:1" "").result.error = some "probe blew up" ∧
      (analyze_image envMidLoopExn st0
        "registry.example/app:1" "").result.node_binaries = []) := by
  constructor
  · have h := (C1_never_raises envPullExn st0 "registry.example/app:1" ""
      "boom" rfl).1 (Or.inl rfl)
    exact ⟨h.1, h.2.1⟩
  · have h := (C1_never_raises envMidLoopExn st0 "registry.example/app:1" ""
      "probe blew up" rfl).2.1
      [⟨"/usr/bin/java", "17.0.1", "openjdk 17.0.1", true, "OpenJDK"⟩]
      rfl rfl rfl rfl
    exact ⟨h.1, h.2.2.1⟩

end Inspector
